import Mathlib

/-!
Verification of the message-board addressing layer (src/index.js).

The JavaScript handlers are embedded as pure Lean functions.  A Document
models the JSON object served at /data.json: numeric tab keys mapping to
values (arrays of message strings, or legacy scalars), plus a lastSaved
field kept separately.  JavaScript object iteration lists array-index-like
keys in ascending numeric order, so tabs are stored as an association list
with Nat keys; setTab keeps that ascending order on insertion.  Integer
parsing, first-occurrence replace, split, slice and truthiness checks are
embedded with JavaScript semantics.
-/

namespace MessageBoard

/-- Decimal digit character, 0 le d le 9 in intended use. -/
def digitChar (d : Nat) : Char := Char.ofNat (48 + d)

/-- Fuel-driven digit expansion; the fuel always suffices at the call site
in charsOfNat, see charsOfNat_eq. -/
def charsOfNatGo : Nat → Nat → List Char
  | 0, _ => []
  | f + 1, n =>
    if n < 10 then [digitChar n]
    else charsOfNatGo f (n / 10) ++ [digitChar (n % 10)]

/-- Decimal digit list of a natural number, most significant first.
This is the decimal rendering used by JavaScript template literals and
Number.prototype.toString for nonnegative integers. -/
def charsOfNat (n : Nat) : List Char := charsOfNatGo (n + 1) n

theorem charsOfNatGo_succ (f n : Nat) :
    charsOfNatGo (f + 1) n =
      if n < 10 then [digitChar n]
      else charsOfNatGo f (n / 10) ++ [digitChar (n % 10)] := rfl

theorem charsOfNatGo_congr :
    ∀ (f1 : Nat) (n : Nat) (f2 : Nat), n < f1 → n < f2 →
      charsOfNatGo f1 n = charsOfNatGo f2 n := by
  intro f1
  induction f1 with
  | zero => intro n f2 h1; omega
  | succ f ih =>
    intro n f2 h1 h2
    cases f2 with
    | zero => omega
    | succ g =>
      show charsOfNatGo (f + 1) n = charsOfNatGo (g + 1) n
      rw [charsOfNatGo_succ, charsOfNatGo_succ]
      by_cases h10 : n < 10
      · rw [if_pos h10, if_pos h10]
      · rw [if_neg h10, if_neg h10, ih (n / 10) g (by omega) (by omega)]

theorem charsOfNat_eq (n : Nat) :
    charsOfNat n =
      if n < 10 then [digitChar n]
      else charsOfNat (n / 10) ++ [digitChar (n % 10)] := by
  show charsOfNatGo (n + 1) n = _
  rw [charsOfNatGo_succ]
  by_cases h10 : n < 10
  · rw [if_pos h10, if_pos h10]
  · rw [if_neg h10, if_neg h10]
    rw [show charsOfNat (n / 10) = charsOfNatGo (n / 10 + 1) (n / 10) from rfl]
    rw [charsOfNatGo_congr n (n / 10) (n / 10 + 1) (by omega) (by omega)]

def natToString (n : Nat) : String := String.mk (charsOfNat n)

/-- String form of an integer, as produced by JavaScript toString. -/
def intToString (i : Int) : String :=
  if i < 0 then "-" ++ natToString i.natAbs else natToString i.toNat

/-- ASCII whitespace skipped by JavaScript parseInt (the relevant subset). -/
def isJsSpace (c : Char) : Bool :=
  c = ' ' || c = '\t' || c = '\n' || c = '\r' || c = Char.ofNat 11 || c = Char.ofNat 12

def isHexDigitChar (c : Char) : Bool :=
  c.isDigit || ('a' ≤ c && c ≤ 'f') || ('A' ≤ c && c ≤ 'F')

def hexDigitVal (c : Char) : Nat :=
  if c.isDigit then c.toNat - 48
  else if 'a' ≤ c && c ≤ 'f' then c.toNat - 87
  else if 'A' ≤ c && c ≤ 'F' then c.toNat - 55
  else 0

def natFromDigits (base : Nat) (ds : List Char) : Nat :=
  ds.foldl (fun a c => a * base + hexDigitVal c) 0

/-- Optional leading sign, as consumed by JavaScript parseInt. -/
def stripSign (l : List Char) : Int × List Char :=
  match l with
  | [] => (1, [])
  | c :: r => if c = '-' then (-1, r) else if c = '+' then (1, r) else (1, c :: r)

/-- Detects the 0x or 0X radix marker of JavaScript parseInt. -/
def isHexMarked (l : List Char) : Bool :=
  match l with
  | c0 :: c1 :: _ => c0 = '0' && (c1 = 'x' || c1 = 'X')
  | _ => false

/-- JavaScript parseInt on a character list: skip whitespace, optional sign,
optional 0x marker, then the longest digit run; none models NaN. -/
def jsParseInt (s : List Char) : Option Int :=
  let t := s.dropWhile isJsSpace
  let p := stripSign t
  if isHexMarked p.2 then
    let ds := (p.2.drop 2).takeWhile isHexDigitChar
    if ds.isEmpty then none else some (p.1 * (natFromDigits 16 ds : Nat))
  else
    let ds := p.2.takeWhile Char.isDigit
    if ds.isEmpty then none else some (p.1 * (natFromDigits 10 ds : Nat))

/-- JavaScript String.prototype.replace with a plain-string pattern and empty
replacement: removes the first occurrence of pat only. -/
def removeFirst (pat : List Char) : List Char → List Char
  | [] => []
  | c :: rest =>
    if pat.isPrefixOf (c :: rest) then (c :: rest).drop pat.length
    else c :: removeFirst pat rest

/-- Fuel-driven splitting; the fuel always suffices at the call site in
splitOnSeq, see splitOnSeq_cons. -/
def splitOnSeqGo (sep : List Char) : Nat → List Char → List (List Char)
  | _, [] => [[]]
  | 0, l => [l]
  | fuel + 1, c :: rest =>
    if sep.isPrefixOf (c :: rest) then
      [] :: splitOnSeqGo sep fuel (rest.drop (sep.length - 1))
    else
      match splitOnSeqGo sep fuel rest with
      | [] => [[c]]
      | p :: ps => (c :: p) :: ps

/-- JavaScript String.prototype.split with a nonempty plain-string separator. -/
def splitOnSeq (sep l : List Char) : List (List Char) := splitOnSeqGo sep l.length l

theorem splitOnSeqGo_succ (sep : List Char) (fuel : Nat) (c : Char) (rest : List Char) :
    splitOnSeqGo sep (fuel + 1) (c :: rest) =
      if sep.isPrefixOf (c :: rest) then
        [] :: splitOnSeqGo sep fuel (rest.drop (sep.length - 1))
      else
        match splitOnSeqGo sep fuel rest with
        | [] => [[c]]
        | p :: ps => (c :: p) :: ps := rfl

theorem splitOnSeqGo_congr (sep : List Char) :
    ∀ (f1 : Nat) (l : List Char) (f2 : Nat), l.length ≤ f1 → l.length ≤ f2 →
      splitOnSeqGo sep f1 l = splitOnSeqGo sep f2 l := by
  intro f1
  induction f1 with
  | zero =>
    intro l f2 h1 _
    have : l = [] := List.eq_nil_of_length_eq_zero (by omega)
    subst this
    cases f2 <;> rfl
  | succ f ih =>
    intro l f2 h1 h2
    cases l with
    | nil => cases f2 <;> rfl
    | cons c rest =>
      cases f2 with
      | zero => simp at h2
      | succ g =>
        show splitOnSeqGo sep (f + 1) (c :: rest) = splitOnSeqGo sep (g + 1) (c :: rest)
        rw [splitOnSeqGo_succ, splitOnSeqGo_succ]
        simp only [List.length_cons] at h1 h2
        rw [ih rest g (by omega) (by omega),
          ih (rest.drop (sep.length - 1)) g
            (by simp only [List.length_drop]; omega)
            (by simp only [List.length_drop]; omega)]

theorem splitOnSeq_nil (sep : List Char) : splitOnSeq sep [] = [[]] := rfl

theorem splitOnSeq_cons (sep : List Char) (c : Char) (rest : List Char) :
    splitOnSeq sep (c :: rest) =
      if sep.isPrefixOf (c :: rest) then
        [] :: splitOnSeq sep (rest.drop (sep.length - 1))
      else
        match splitOnSeq sep rest with
        | [] => [[c]]
        | p :: ps => (c :: p) :: ps := by
  show splitOnSeqGo sep (rest.length + 1) (c :: rest) = _
  rw [splitOnSeqGo_succ]
  rw [show splitOnSeq sep (rest.drop (sep.length - 1)) =
    splitOnSeqGo sep (rest.drop (sep.length - 1)).length (rest.drop (sep.length - 1)) from rfl]
  rw [splitOnSeqGo_congr sep rest.length (rest.drop (sep.length - 1))
    (rest.drop (sep.length - 1)).length
    (by simp only [List.length_drop]; omega) (by omega)]
  rfl

def tabPat : List Char := ['t', 'a', 'b']
def msgSep : List Char := ['-', 'm', 's', 'g']

/-- The parts produced by messageId.replace of tab then split on -msg. -/
def idParts (s : String) : List (List Char) :=
  splitOnSeq msgSep (removeFirst tabPat s.data)

def tabPart (s : String) : List Char := (idParts s).headD []

def idxPart (s : String) : Option (List Char) :=
  match idParts s with
  | _ :: p :: _ => some p
  | _ => none

/-- Parse of the index part; none models the NaN reached when the part is
missing (undefined) or fails to parse. -/
def idxParse (s : String) : Option Int :=
  match idxPart s with
  | some p => jsParseInt p
  | none => none

/-- The shared id decoding of get_message, update_message and delete_message:
parse both parts with parseInt; fail if the tab id is NaN or falsy (zero) or
the index is NaN.  Mirrors src/index.js lines 164-170 (same code at 271-277
and 367-373). -/
def parseMessageId (s : String) : Option (Int × Int) :=
  match jsParseInt (tabPart s), idxParse s with
  | some t, some i => if t = 0 then none else some (t, i)
  | _, _ => none

/-- Decoded pair in the form the claims state it: the tab key string
(tabId.toString() in the source) and the numeric index. -/
def decodeMessageId (s : String) : Option (String × Int) :=
  (parseMessageId s).map (fun p => (intToString p.1, p.2))

/-- Message id encoding, the template literal tab...-msg... of src/index.js
lines 126 and 244. -/
def encodeMessageId (tabKey : String) (idx : Nat) : String :=
  "tab" ++ tabKey ++ "-msg" ++ natToString idx

/-- A value stored at a tab key of the document: an array of message strings,
a legacy string scalar, or some other JSON value.  For the other case only
its truthiness and its JSON.stringify rendering are relevant to the code. -/
inductive TabVal
  | arr (msgs : List String)
  | str (s : String)
  | other (truthy : Bool) (stringified : String)
deriving DecidableEq

/-- JavaScript truthiness of a tab value: arrays are always truthy, the empty
string is falsy. -/
def tvTruthy : TabVal → Bool
  | .arr _ => true
  | .str s => s != ""
  | .other b _ => b

/-- The whole JSON document: numeric-keyed tabs in ascending key order (the
iteration order JavaScript gives array-index-like keys) plus lastSaved. -/
structure Document where
  tabs : List (Nat × TabVal)
  lastSaved : Option String
deriving DecidableEq

/-- Keys strictly ascending: the shape every JavaScript object with
array-index-like keys presents under key iteration. -/
def SortedTabs (tabs : List (Nat × TabVal)) : Prop :=
  tabs.Pairwise (fun a b => a.1 < b.1)

def getTab : List (Nat × TabVal) → Nat → Option TabVal
  | [], _ => none
  | (k1, v1) :: rest, k => if k1 = k then some v1 else getTab rest k

/-- Property write on the document object; a fresh key is inserted at its
numeric position, matching JavaScript iteration order of array-index keys. -/
def setTab : List (Nat × TabVal) → Nat → TabVal → List (Nat × TabVal)
  | [], k, v => [(k, v)]
  | (k1, v1) :: rest, k, v =>
    if k = k1 then (k, v) :: rest
    else if k < k1 then (k, v) :: (k1, v1) :: rest
    else (k1, v1) :: setTab rest k v

/-- Lookup of allData at the decoded tab id rendered as a string; a negative
id never names a numeric-keyed tab of the modelled document. -/
def lookupTabId (d : Document) (t : Int) : Option TabVal :=
  if t < 0 then none else getTab d.tabs t.toNat

/-- JavaScript array indexing arr at i for an integer i: undefined when
negative or past the end. -/
def jsIndex (l : List String) (i : Int) : Option String :=
  if i < 0 then none else l.get? i.toNat

/-- Mirrors the existence check of lines 173, 280 and 376: not (no value at
the key, or the value is not an array, or the element at the index is falsy).
Returns the array when the check passes. -/
def tabArrayWithMsg (v : Option TabVal) (i : Int) : Option (List String) :=
  match v with
  | some (TabVal.arr l) =>
    match jsIndex l i with
    | some m => if m = "" then none else some l
    | none => none
  | _ => none

/-- The static TAB_NAMES table, in its iteration order. -/
def TAB_NAMES : List (Nat × String) :=
  [(1, "First Messages"), (2, "Second Messages"), (3, "Third Messages"),
   (4, "Fourth Messages"), (5, "Short First"), (6, "Not Interested"),
   (7, "Interested"), (8, "Affiliate"), (9, "Old Connections"), (10, "New Task")]

/-- TAB_NAMES lookup with the Tab-k fallback used in every view. -/
def keyToName (k : Nat) : String :=
  match TAB_NAMES.find? (fun kv => kv.1 == k) with
  | some kv => kv.2
  | none => "Tab " ++ natToString k

/-- ASCII lower-casing, the behavior of JavaScript toLowerCase on the ASCII
strings involved here. -/
def charToLower (c : Char) : Char :=
  if 'A' ≤ c && c ≤ 'Z' then Char.ofNat (c.toNat + 32) else c

def strToLower (s : String) : String := String.mk (s.data.map charToLower)

def nameMatches (name : String) (kv : Nat × String) : Bool :=
  strToLower kv.2 == strToLower name

/-- The forEach scan of TAB_NAMES used by create_message and update_message:
every case-insensitive match overwrites the accumulator, so the last match
wins; the default survives when nothing matches. -/
def scanNameToKey (name : String) (dflt : Nat) : Nat :=
  TAB_NAMES.foldl (fun acc kv => if nameMatches name kv then kv.1 else acc) dflt

/-- JavaScript truthiness of an optional string argument. -/
def optTruthy : Option String → Bool
  | some s => s != ""
  | none => false

/-- Category resolution as the handlers guard it: the scan only runs when
args.category is truthy. -/
def resolveCategory (category : Option String) (dflt : Nat) : Nat :=
  match category with
  | some name => if name == "" then dflt else scanNameToKey name dflt
  | none => dflt

/-- Derived title: first 50 characters plus an ellipsis marker when longer. -/
def jsTitle (s : String) : String :=
  String.mk (s.data.take 50) ++ (if 50 < s.data.length then "..." else "")

structure GetView where
  id : String
  title : String
  content : String
  tabId : String
  category : String
deriving DecidableEq

structure CreateView where
  id : String
  title : String
  content : String
  tabId : String
  category : String
  createdAt : String
deriving DecidableEq

structure UpdateView where
  id : String
  content : Option String
  tabId : String
  category : String
  updatedAt : String
  title : Option String
deriving DecidableEq

structure DeleteReceipt where
  success : Bool
  messageId : String
  tabId : String
  category : String
  deletedAt : String
deriving DecidableEq

inductive MBError
  | missingRequiredField
  | invalidIdFormat
  | messageNotFound
  | saveFailed
deriving DecidableEq

instance instDecEqExcept {α β : Type} [DecidableEq α] [DecidableEq β] :
    DecidableEq (Except α β) := fun a b =>
  match a, b with
  | Except.ok x, Except.ok y =>
    if h : x = y then isTrue (congrArg Except.ok h)
    else isFalse (fun he => h (Except.ok.inj he))
  | Except.error x, Except.error y =>
    if h : x = y then isTrue (congrArg Except.error h)
    else isFalse (fun he => h (Except.error.inj he))
  | Except.ok _, Except.error _ => isFalse (fun he => Except.noConfusion he)
  | Except.error _, Except.ok _ => isFalse (fun he => Except.noConfusion he)

/-- Result of one handler run: the response, and the document sent to the
save endpoint when a save was attempted (none when no save happened). -/
structure Outcome (V : Type) where
  result : Except MBError V
  saveAttempt : Option Document

/-- The stored document after an operation: only a successful save replaces
it. -/
def storeAfter {V : Type} (orig : Document) (o : Outcome V) (saveOk : Bool) : Document :=
  match o.saveAttempt with
  | some d => if saveOk then d else orig
  | none => orig

/-- Lines 220-226 and 309-314: a missing or falsy tab value is reinitialized
to an empty array; a truthy non-array is wrapped, stringifying non-strings;
the message is then pushed onto the result. -/
def coerceTab : Option TabVal → List String
  | none => []
  | some v =>
    if tvTruthy v then
      match v with
      | .arr l => l
      | .str s => [s]
      | .other _ j => [j]
    else []

structure CreateArgs where
  title : Option String
  content : Option String
  category : Option String

/-- create_message, lines 198-259: validate title and content, resolve the
target tab (default 1), coerce the tab, append, save, and answer with the
new index; lastSaved is left untouched. -/
def createMessage (d : Document) (a : CreateArgs) (saveOk : Bool) (nowIso : String) :
    Outcome CreateView :=
  if !(optTruthy a.title && optTruthy a.content) then
    { result := .error .missingRequiredField, saveAttempt := none }
  else
    let content := a.content.getD ""
    let tabKey := resolveCategory a.category 1
    let newSeq := coerceTab (getTab d.tabs tabKey) ++ [content]
    let d1 : Document := { d with tabs := setTab d.tabs tabKey (TabVal.arr newSeq) }
    if saveOk then
      { result := .ok
          { id := encodeMessageId (natToString tabKey) (newSeq.length - 1)
            title := a.title.getD ""
            content := content
            tabId := natToString tabKey
            category := keyToName tabKey
            createdAt := nowIso }
        saveAttempt := some d1 }
    else { result := .error .saveFailed, saveAttempt := some d1 }

/-- get_message, lines 154-196: no save is ever attempted, so the plain
result suffices. -/
def getMessage (d : Document) (messageId : Option String) : Except MBError GetView :=
  if !(optTruthy messageId) then .error .missingRequiredField
  else
    let mid := messageId.getD ""
    match parseMessageId mid with
    | none => .error .invalidIdFormat
    | some ti =>
      match tabArrayWithMsg (lookupTabId d ti.1) ti.2 with
      | none => .error .messageNotFound
      | some l =>
        let m := (jsIndex l ti.2).getD ""
        .ok { id := mid, title := jsTitle m, content := m
              tabId := intToString ti.1, category := keyToName ti.1.toNat }

structure UpdateArgs where
  messageId : Option String
  title : Option String
  content : Option String
  category : Option String

/-- The array currently stored at a key, for the final view read of
update_message. -/
def arrAt (tabs : List (Nat × TabVal)) (k : Nat) : List String :=
  match getTab tabs k with
  | some (TabVal.arr l) => l
  | _ => []

/-- The in-memory mutation of update_message, lines 284-319: optional
in-place content write, then the optional move to the tab resolved from the
category (splice out of the source, coerce the destination, push). -/
def updateTabs (d : Document) (a : UpdateArgs) (t i : Int) (l : List String) :
    List (Nat × TabVal) :=
  let k := t.toNat
  let i1 := i.toNat
  let l1 := if optTruthy a.content then l.set i1 (a.content.getD "") else l
  let tabs1 := if optTruthy a.content then setTab d.tabs k (TabVal.arr l1) else d.tabs
  if optTruthy a.category then
    let newKey := scanNameToKey (a.category.getD "") k
    if newKey = k then tabs1
    else
      let moved := (l1.get? i1).getD ""
      let t1 := setTab tabs1 k (TabVal.arr (l1.eraseIdx i1))
      setTab t1 newKey (TabVal.arr (coerceTab (getTab t1 newKey) ++ [moved]))
  else tabs1

/-- update_message, lines 261-355: decode and validate, mutate through
updateTabs, refresh lastSaved, save. -/
def updateMessage (d : Document) (a : UpdateArgs) (saveOk : Bool)
    (nowLocale nowIso : String) : Outcome UpdateView :=
  if !(optTruthy a.messageId) then { result := .error .missingRequiredField, saveAttempt := none }
  else
    let mid := a.messageId.getD ""
    match parseMessageId mid with
    | none => { result := .error .invalidIdFormat, saveAttempt := none }
    | some ti =>
      match tabArrayWithMsg (lookupTabId d ti.1) ti.2 with
      | none => { result := .error .messageNotFound, saveAttempt := none }
      | some l =>
        let k := ti.1.toNat
        let tabs2 := updateTabs d a ti.1 ti.2 l
        let d2 : Document := { tabs := tabs2, lastSaved := some nowLocale }
        if saveOk then
          { result := .ok
              { id := mid
                content := if optTruthy a.content then a.content else jsIndex (arrAt tabs2 k) ti.2
                tabId := intToString ti.1
                category := keyToName k
                updatedAt := nowIso
                title := if optTruthy a.title then a.title else none }
            saveAttempt := some d2 }
        else { result := .error .saveFailed, saveAttempt := some d2 }

/-- delete_message, lines 357-415: decode and validate, splice out the
element, refresh lastSaved, save, return a receipt. -/
def deleteMessage (d : Document) (messageId : Option String) (saveOk : Bool)
    (nowLocale nowIso : String) : Outcome DeleteReceipt :=
  if !(optTruthy messageId) then { result := .error .missingRequiredField, saveAttempt := none }
  else
    let mid := messageId.getD ""
    match parseMessageId mid with
    | none => { result := .error .invalidIdFormat, saveAttempt := none }
    | some ti =>
      match tabArrayWithMsg (lookupTabId d ti.1) ti.2 with
      | none => { result := .error .messageNotFound, saveAttempt := none }
      | some l =>
        let k := ti.1.toNat
        let d2 : Document :=
          { tabs := setTab d.tabs k (TabVal.arr (l.eraseIdx ti.2.toNat))
            lastSaved := some nowLocale }
        if saveOk then
          { result := .ok
              { success := true, messageId := mid, tabId := intToString ti.1
                category := keyToName k, deletedAt := nowIso }
            saveAttempt := some d2 }
        else { result := .error .saveFailed, saveAttempt := some d2 }

structure ListArgs where
  category : Option String
  limit : Option Int
  page : Option Int

/-- Views of one tab, lines 122-134: only array tabs contribute. -/
def tabViews (k : Nat) (v : TabVal) : List GetView :=
  match v with
  | TabVal.arr l => l.mapIdx (fun i m =>
      { id := encodeMessageId (natToString k) i, title := jsTitle m
        content := m, tabId := natToString k, category := keyToName k })
  | _ => []

/-- JavaScript Array.prototype.slice with two integer arguments, including
the from-the-end meaning of negative positions. -/
def jsSlice {α : Type} (l : List α) (start stop : Int) : List α :=
  let len : Int := l.length
  let s := if start < 0 then max (len + start) 0 else min start len
  let e := if stop < 0 then max (len + stop) 0 else min stop len
  (l.drop s.toNat).take (e - s).toNat

/-- get_messages, lines 102-152: choose target tabs (all numeric keys, or the
TAB_NAMES keys matching a truthy category), flatten their arrays, then slice
only when args.limit is truthy, with a falsy page defaulting to 1. -/
def getMessages (d : Document) (a : ListArgs) : List GetView :=
  let targetTabs : List Nat :=
    if optTruthy a.category then
      (TAB_NAMES.filter (fun kv => nameMatches (a.category.getD "") kv)).map (fun kv => kv.1)
    else
      d.tabs.map (fun kv => kv.1)
  let messages := (targetTabs.map (fun k =>
    match getTab d.tabs k with
    | some v => tabViews k v
    | none => [])).flatten
  match a.limit with
  | some lim =>
    if lim = 0 then messages
    else
      let page : Int := match a.page with | some p => if p = 0 then 1 else p | none => 1
      jsSlice messages ((page - 1) * lim) ((page - 1) * lim + lim)
  | none => messages

/-- Spec-side list: the concatenation of every tab of the document in stored
(ascending-key) order, each tab in ascending index order. -/
def specConcat (d : Document) : List GetView :=
  (d.tabs.map (fun kv => tabViews kv.1 kv.2)).flatten

/-- Spec-side category resolution: the last entry of the table whose name
matches case-insensitively, else the default. -/
def specLastMatchKey (name : String) (dflt : Nat) : Nat :=
  match TAB_NAMES.reverse.find? (fun kv => nameMatches name kv) with
  | some kv => kv.1
  | none => dflt

/-- Spec-side message count of one tab value: a legacy scalar counts as the
single element it coerces to. -/
def specTabCount : TabVal → Nat
  | TabVal.arr l => l.length
  | TabVal.str _ => 1
  | TabVal.other _ _ => 1

/-- Spec-side total number of messages across all tabs of a document. -/
def specTotalMessages (d : Document) : Nat :=
  (d.tabs.map (fun kv => specTabCount kv.2)).sum

/-! Facts about decimal digit characters. -/

theorem digitChar_isDigit {k : Nat} (hk : k < 10) : (digitChar k).isDigit = true := by
  interval_cases k <;> decide

theorem digitChar_not_space {k : Nat} (hk : k < 10) : isJsSpace (digitChar k) = false := by
  interval_cases k <;> decide

theorem digitChar_ne_dash {k : Nat} (hk : k < 10) : digitChar k ≠ '-' := by
  interval_cases k <;> decide

theorem digitChar_ne_plus {k : Nat} (hk : k < 10) : digitChar k ≠ '+' := by
  interval_cases k <;> decide

theorem digitChar_ne_x {k : Nat} (hk : k < 10) : digitChar k ≠ 'x' ∧ digitChar k ≠ 'X' := by
  interval_cases k <;> decide

theorem hexDigitVal_digitChar {k : Nat} (hk : k < 10) : hexDigitVal (digitChar k) = k := by
  interval_cases k <;> decide

theorem charsOfNat_digits (n : Nat) : ∀ c ∈ charsOfNat n, ∃ k, k < 10 ∧ c = digitChar k := by
  rw [charsOfNat_eq]
  split
  · intro c hc
    simp only [List.mem_singleton] at hc
    exact ⟨n, by omega, hc⟩
  · intro c hc
    rw [List.mem_append] at hc
    rcases hc with h | h
    · exact charsOfNat_digits (n / 10) c h
    · simp only [List.mem_singleton] at h
      exact ⟨n % 10, Nat.mod_lt _ (by omega), h⟩
  termination_by n
  decreasing_by exact Nat.div_lt_self (by omega) (by omega)

theorem charsOfNat_ne_nil (n : Nat) : charsOfNat n ≠ [] := by
  rw [charsOfNat_eq]
  split <;> simp

theorem dash_not_mem_charsOfNat (n : Nat) : '-' ∉ charsOfNat n := by
  intro hm
  obtain ⟨k, hk, he⟩ := charsOfNat_digits n _ hm
  exact digitChar_ne_dash hk he.symm

theorem natFromDigits_charsOfNat (n : Nat) : natFromDigits 10 (charsOfNat n) = n := by
  rw [charsOfNat_eq]
  split
  · simp only [natFromDigits, List.foldl, Nat.zero_mul, Nat.zero_add]
    exact hexDigitVal_digitChar (by omega)
  · have ih := natFromDigits_charsOfNat (n / 10)
    simp only [natFromDigits, List.foldl_append, List.foldl] at *
    rw [ih, hexDigitVal_digitChar (Nat.mod_lt _ (by omega))]
    omega
  termination_by n
  decreasing_by exact Nat.div_lt_self (by omega) (by omega)

theorem takeWhile_all {p : Char → Bool} :
    ∀ l : List Char, (∀ c ∈ l, p c = true) → l.takeWhile p = l := by
  intro l h
  induction l with
  | nil => rfl
  | cons c t ih =>
    simp only [List.takeWhile_cons, h c (by simp), if_true]
    rw [ih (fun x hx => h x (by simp [hx]))]

theorem jsParseInt_digits (ds : List Char) (hne : ds ≠ [])
    (hd : ∀ c ∈ ds, ∃ k, k < 10 ∧ c = digitChar k) :
    jsParseInt ds = some ((natFromDigits 10 ds : Nat) : Int) := by
  match ds, hne with
  | c :: rest, _ =>
    obtain ⟨k, hk, rfl⟩ := hd c (by simp)
    have hdw : (digitChar k :: rest).dropWhile isJsSpace = digitChar k :: rest := by
      rw [List.dropWhile_cons, digitChar_not_space hk]
      simp
    have hss : stripSign (digitChar k :: rest) = (1, digitChar k :: rest) := by
      simp [stripSign, digitChar_ne_dash hk, digitChar_ne_plus hk]
    have hhm : isHexMarked (digitChar k :: rest) = false := by
      cases rest with
      | nil => rfl
      | cons c1 r1 =>
        obtain ⟨k1, hk1, rfl⟩ := hd c1 (by simp)
        simp [isHexMarked, (digitChar_ne_x hk1).1, (digitChar_ne_x hk1).2]
    have htw : (digitChar k :: rest).takeWhile Char.isDigit = digitChar k :: rest := by
      apply takeWhile_all
      intro x hx
      obtain ⟨kx, hkx, rfl⟩ := hd x hx
      exact digitChar_isDigit hkx
    simp only [jsParseInt, hdw, hss, hhm, htw]
    simp

theorem jsParseInt_charsOfNat (n : Nat) : jsParseInt (charsOfNat n) = some (n : Int) := by
  rw [jsParseInt_digits _ (charsOfNat_ne_nil n) (charsOfNat_digits n), natFromDigits_charsOfNat]

/-! Lemmas about removeFirst and splitOnSeq. -/

theorem isPrefixOf_append_self (l r : List Char) : l.isPrefixOf (l ++ r) = true := by
  induction l with
  | nil => simp [List.isPrefixOf]
  | cons c t ih => simp [List.isPrefixOf, ih]

theorem removeFirst_pfx (pat rest : List Char) : removeFirst pat (pat ++ rest) = rest := by
  cases pat with
  | nil =>
    cases rest with
    | nil => rfl
    | cons c t =>
      rw [List.nil_append, removeFirst]
      simp [List.isPrefixOf]
  | cons p pt =>
    rw [List.cons_append, removeFirst]
    have hp : (p :: pt).isPrefixOf (p :: (pt ++ rest)) = true := by
      have := isPrefixOf_append_self (p :: pt) rest
      rwa [List.cons_append] at this
    simp only [hp, if_true, ← List.cons_append, List.drop_left]
    rw [isPrefixOf_append_self]
    simp

theorem splitOnSeq_no_sep (s0 : Char) (st ys : List Char) (h : s0 ∉ ys) :
    splitOnSeq (s0 :: st) ys = [ys] := by
  induction ys with
  | nil => rw [splitOnSeq_nil]
  | cons c rest ih =>
    have hc : (s0 == c) = false := by
      simp only [beq_eq_false_iff_ne, ne_eq]
      intro he
      exact h (by simp [he])
    rw [splitOnSeq_cons]
    simp only [List.isPrefixOf, hc, Bool.false_and, Bool.false_eq_true, if_false]
    rw [ih (fun hm => h (List.mem_cons_of_mem _ hm))]

theorem splitOnSeq_append (s0 : Char) (st xs ys : List Char) (h : s0 ∉ xs) :
    splitOnSeq (s0 :: st) (xs ++ (s0 :: st) ++ ys) = xs :: splitOnSeq (s0 :: st) ys := by
  induction xs with
  | nil =>
    simp only [List.nil_append]
    rw [List.cons_append, splitOnSeq_cons]
    have hp : (s0 :: st).isPrefixOf (s0 :: (st ++ ys)) = true := by
      have := isPrefixOf_append_self (s0 :: st) ys
      rwa [List.cons_append] at this
    simp only [hp, if_true]
    congr 1
    rw [List.length_cons, Nat.add_sub_cancel, List.drop_left]
  | cons x xt ih =>
    have hx : (s0 == x) = false := by
      simp only [beq_eq_false_iff_ne, ne_eq]
      intro he
      exact h (by simp [he])
    rw [List.cons_append, List.cons_append, splitOnSeq_cons]
    simp only [List.isPrefixOf, hx, Bool.false_and, Bool.false_eq_true, if_false]
    rw [ih (fun hm => h (List.mem_cons_of_mem _ hm))]

theorem splitOnSeq_msgSep_append (xs ys : List Char) (h : '-' ∉ xs) :
    splitOnSeq msgSep (xs ++ msgSep ++ ys) = xs :: splitOnSeq msgSep ys :=
  splitOnSeq_append '-' ['m', 's', 'g'] xs ys h

theorem splitOnSeq_msgSep_no (ys : List Char) (h : '-' ∉ ys) :
    splitOnSeq msgSep ys = [ys] :=
  splitOnSeq_no_sep '-' ['m', 's', 'g'] ys h

theorem data_append (a b : String) : (a ++ b).data = a.data ++ b.data := rfl

theorem encode_data (tabKey : String) (idx : Nat) :
    (encodeMessageId tabKey idx).data =
      tabPat ++ (tabKey.data ++ (msgSep ++ charsOfNat idx)) := by
  show ("tab" ++ tabKey ++ "-msg" ++ natToString idx).data = _
  simp only [data_append, List.append_assoc]
  rfl

theorem idParts_encode (n i : Nat) :
    idParts (encodeMessageId (natToString n) i) = [charsOfNat n, charsOfNat i] := by
  unfold idParts
  rw [encode_data, removeFirst_pfx]
  show splitOnSeq msgSep (charsOfNat n ++ (msgSep ++ charsOfNat i)) = _
  rw [← List.append_assoc]
  rw [splitOnSeq_msgSep_append _ _ (dash_not_mem_charsOfNat n)]
  rw [splitOnSeq_msgSep_no _ (dash_not_mem_charsOfNat i)]

theorem intToString_natCast (n : Nat) : intToString (n : Int) = natToString n := by
  unfold intToString
  simp

theorem parseMessageId_encode {n : Nat} (i : Nat) (hn : 0 < n) :
    parseMessageId (encodeMessageId (natToString n) i) = some ((n : Int), (i : Int)) := by
  unfold parseMessageId idxParse tabPart idxPart
  simp only [idParts_encode, List.headD_cons]
  rw [jsParseInt_charsOfNat, jsParseInt_charsOfNat]
  have hne : ¬ ((n : Int) = 0) := by
    simp only [Int.natCast_eq_zero]
    omega
  simp [hne]

/-- C1: for every tab key k that is the string form of a positive integer and
every index i within the bounds of the sequence stored at tab k of a
document, decoding the encoded message id tab k -msg i yields back exactly
the pair of k and i. -/
theorem C1_decode_encode (d : Document) (n i : Nat) (l : List String)
    (hn : 0 < n) (htab : getTab d.tabs n = some (TabVal.arr l)) (hi : i < l.length) :
    decodeMessageId (encodeMessageId (natToString n) i) = some (natToString n, (i : Int)) := by
  unfold decodeMessageId
  rw [parseMessageId_encode i hn]
  simp [intToString_natCast]

theorem C1_decode_encode_witness :
    0 < 2 ∧
      decodeMessageId (encodeMessageId (natToString 2) 1) = some (natToString 2, (1 : Int)) :=
  ⟨by decide,
    C1_decode_encode ⟨[(2, TabVal.arr ["a", "b"])], none⟩ 2 1 ["a", "b"]
      (by decide) (by decide) (by decide)⟩

/-- C10: the id decoder shared by get_message, update_message and
delete_message is lenient: the literal tab marker is not required (only a
first occurrence of the substring tab is removed) and characters after the
leading digits of either part are ignored, so both 2-msg0 and tab2x-msg0y
decode to tab key 2 and index 0 instead of being rejected, and get_message
accepts such ids. -/
theorem C10_lenient_decoding :
    decodeMessageId "2-msg0" = some ("2", (0 : Int)) ∧
    decodeMessageId "tab2x-msg0y" = some ("2", (0 : Int)) ∧
    getMessage ⟨[(2, TabVal.arr ["hello"])], none⟩ (some "2-msg0") =
      .ok { id := "2-msg0", title := "hello", content := "hello", tabId := "2",
            category := "Second Messages" } ∧
    getMessage ⟨[(2, TabVal.arr ["hello"])], none⟩ (some "tab2x-msg0y") =
      .ok { id := "tab2x-msg0y", title := "hello", content := "hello", tabId := "2",
            category := "Second Messages" } := by
  refine ⟨?_, ?_, ?_, ?_⟩ <;> decide

theorem parseMessageId_empty : parseMessageId "" = none := by decide

theorem parse_ne_empty {s : String} {p : Int × Int} (h : parseMessageId s = some p) :
    s ≠ "" := by
  intro he
  subst he
  rw [parseMessageId_empty] at h
  cases h

theorem tabPart_zero_ne_empty {s : String} (h : jsParseInt (tabPart s) = some 0) :
    s ≠ "" := by
  intro he
  subst he
  have : jsParseInt (tabPart "") = none := by decide
  rw [this] at h
  cases h

theorem optTruthy_some_of_ne {s : String} (h : s ≠ "") : optTruthy (some s) = true := by
  simp [optTruthy, h]

theorem parseMessageId_tab_zero {s : String} (h : jsParseInt (tabPart s) = some 0) :
    parseMessageId s = none := by
  unfold parseMessageId
  rw [h]
  cases h2 : idxParse s <;> simp

/-- C4: decoding fails with InvalidIdFormat exactly when the tab part does
not parse to a truthy (nonzero) integer or the index part does not parse at
all; in particular any id whose tab part parses to 0, such as tab0-msg3, is
rejected with InvalidIdFormat by get_message, update_message and
delete_message, so tab key 0 is unreachable through the id codec. -/
theorem C4_invalid_id_format :
    (∀ id : String,
      parseMessageId id = none ↔
        jsParseInt (tabPart id) = none ∨ jsParseInt (tabPart id) = some 0 ∨
          idxParse id = none) ∧
    (∀ (d : Document) (a : UpdateArgs) (id : String) (sv : Bool) (nl ni : String),
      jsParseInt (tabPart id) = some 0 →
      a.messageId = some id →
      getMessage d (some id) = .error .invalidIdFormat ∧
      (updateMessage d a sv nl ni).result = .error .invalidIdFormat ∧
      (deleteMessage d (some id) sv nl ni).result = .error .invalidIdFormat) ∧
    jsParseInt (tabPart "tab0-msg3") = some 0 := by
  refine ⟨?_, ?_, by decide⟩
  · intro id
    unfold parseMessageId
    cases h1 : jsParseInt (tabPart id) with
    | none => simp
    | some t =>
      cases h2 : idxParse id with
      | none => simp
      | some i =>
        by_cases ht : t = 0
        · subst ht
          simp
        · simp [ht]
  · intro d a id sv nl ni hz hmid
    have hne : id ≠ "" := tabPart_zero_ne_empty hz
    have hpm : parseMessageId id = none := parseMessageId_tab_zero hz
    refine ⟨?_, ?_, ?_⟩
    · unfold getMessage
      rw [optTruthy_some_of_ne hne]
      simp only [Bool.not_true, Bool.false_eq_true, if_false, Option.getD_some, hpm]
    · unfold updateMessage
      rw [hmid, optTruthy_some_of_ne hne]
      simp only [Bool.not_true, Bool.false_eq_true, if_false, Option.getD_some, hpm]
    · unfold deleteMessage
      rw [optTruthy_some_of_ne hne]
      simp only [Bool.not_true, Bool.false_eq_true, if_false, Option.getD_some, hpm]

theorem C4_invalid_id_format_witness :
    getMessage ⟨[(1, TabVal.arr ["a"])], none⟩ (some "tab0-msg3") =
      .error .invalidIdFormat ∧
    (updateMessage ⟨[(1, TabVal.arr ["a"])], none⟩
      ⟨some "tab0-msg3", none, none, none⟩ true "t1" "t2").result = .error .invalidIdFormat ∧
    (deleteMessage ⟨[(1, TabVal.arr ["a"])], none⟩
      (some "tab0-msg3") true "t1" "t2").result = .error .invalidIdFormat :=
  C4_invalid_id_format.2.1 ⟨[(1, TabVal.arr ["a"])], none⟩
    ⟨some "tab0-msg3", none, none, none⟩ "tab0-msg3" true "t1" "t2"
    C4_invalid_id_format.2.2 rfl

theorem tabArrayWithMsg_eq_none_iff (v : Option TabVal) (i : Int) :
    tabArrayWithMsg v i = none ↔
      (∀ l, v ≠ some (TabVal.arr l)) ∨
      (∃ l, v = some (TabVal.arr l) ∧ (jsIndex l i = none ∨ jsIndex l i = some "")) := by
  cases v with
  | none => simp [tabArrayWithMsg]
  | some tv =>
    cases tv with
    | arr l =>
      cases hj : jsIndex l i with
      | none => simp [tabArrayWithMsg, hj]
      | some m =>
        by_cases hm : m = ""
        · subst hm
          simp [tabArrayWithMsg, hj]
        · simp [tabArrayWithMsg, hj, hm]
    | str s => simp [tabArrayWithMsg]
    | other b j => simp [tabArrayWithMsg]

theorem tabArrayWithMsg_eq_some_self {l : List String} {i : Int} {m : String}
    (hj : jsIndex l i = some m) (hm : m ≠ "") :
    tabArrayWithMsg (some (TabVal.arr l)) i = some l := by
  simp [tabArrayWithMsg, hj, hm]

/-- C3 amended: for an id that decodes, get_message fails with
MessageNotFound iff the tab is absent or not a sequence, the index is out of
bounds (negative included), or the in-bounds element is the falsy empty
string; in the remaining cases the message view is returned. -/
theorem C3_get_not_found (d : Document) (id : String) (t i : Int)
    (hp : parseMessageId id = some (t, i)) :
    (getMessage d (some id) = .error .messageNotFound ↔
      (∀ l, lookupTabId d t ≠ some (TabVal.arr l)) ∨
      (∃ l, lookupTabId d t = some (TabVal.arr l) ∧
        (jsIndex l i = none ∨ jsIndex l i = some ""))) ∧
    (∀ (l : List String) (m : String),
      lookupTabId d t = some (TabVal.arr l) → jsIndex l i = some m → m ≠ "" →
      getMessage d (some id) =
        .ok { id := id, title := jsTitle m, content := m,
              tabId := intToString t, category := keyToName t.toNat }) := by
  have hne : id ≠ "" := parse_ne_empty hp
  constructor
  · unfold getMessage
    rw [optTruthy_some_of_ne hne]
    simp only [Bool.not_true, Bool.false_eq_true, if_false, Option.getD_some, hp]
    cases hA : tabArrayWithMsg (lookupTabId d t) i with
    | none =>
      exact iff_of_true (by simp) ((tabArrayWithMsg_eq_none_iff _ _).mp hA)
    | some l =>
      refine iff_of_false (by simp) ?_
      intro hcond
      have : tabArrayWithMsg (lookupTabId d t) i = none :=
        (tabArrayWithMsg_eq_none_iff _ _).mpr hcond
      rw [hA] at this
      cases this
  · intro l m hl hj hm
    have hA : tabArrayWithMsg (lookupTabId d t) i = some l := by
      rw [hl]
      exact tabArrayWithMsg_eq_some_self hj hm
    unfold getMessage
    rw [optTruthy_some_of_ne hne]
    simp only [Bool.not_true, Bool.false_eq_true, if_false, Option.getD_some, hp, hA, hj,
      Option.getD_some]

/-- C3 counterexample: tab1-msg0 decodes, tab 1 is present as a sequence and
index 0 is in bounds, yet get_message answers MessageNotFound because the
stored element is the falsy empty string, contradicting the iff of the
claim. -/
theorem C3_counterexample :
    parseMessageId "tab1-msg0" = some (1, 0) ∧
    lookupTabId ⟨[(1, TabVal.arr [""])], none⟩ 1 = some (TabVal.arr [""]) ∧
    jsIndex [""] 0 = some "" ∧
    getMessage ⟨[(1, TabVal.arr [""])], none⟩ (some "tab1-msg0") =
      .error .messageNotFound := by
  refine ⟨?_, ?_, ?_, ?_⟩ <;> decide

theorem C3_get_not_found_witness :
    getMessage ⟨[(1, TabVal.arr ["hi"])], none⟩ (some "tab1-msg0") =
      .ok { id := "tab1-msg0", title := jsTitle "hi", content := "hi",
            tabId := intToString 1, category := keyToName (Int.toNat 1) } :=
  (C3_get_not_found ⟨[(1, TabVal.arr ["hi"])], none⟩ "tab1-msg0" 1 0 (by decide)).2
    ["hi"] "hi" (by decide) (by decide) (by decide)

/-! Category resolution: the foldl scan equals last-match-or-default. -/

theorem foldl_last_match (l : List (Nat × String)) (p : Nat × String → Bool) (dflt : Nat) :
    l.foldl (fun acc kv => if p kv then kv.1 else acc) dflt =
      (match l.reverse.find? p with
       | some kv => kv.1
       | none => dflt) := by
  induction l generalizing dflt with
  | nil => rfl
  | cons kv t ih =>
    rw [List.foldl_cons, ih]
    rw [List.reverse_cons, List.find?_append]
    cases hf : t.reverse.find? p with
    | some kv2 => simp [Option.orElse]
    | none =>
      cases hp : p kv with
      | true => simp [Option.orElse, List.find?, hp]
      | false => simp [Option.orElse, List.find?, hp]

theorem scanNameToKey_no_match {name : String} (dflt : Nat)
    (h : ∀ kv ∈ TAB_NAMES, nameMatches name kv = false) :
    scanNameToKey name dflt = dflt := by
  unfold scanNameToKey
  rw [foldl_last_match]
  rw [List.find?_eq_none.mpr (fun kv hm => by
    rw [h kv (List.mem_reverse.mp hm)]
    exact Bool.false_ne_true)]

/-- C5: category-name resolution is the linear scan of the static table with
case-insensitive comparison in which the last matching key wins; when no
entry matches, create keeps the default tab key 1 and update keeps the
current tab key, and neither operation errors on the unknown name, both
behaving exactly as if no category had been given. -/
theorem C5_category_resolution :
    (∀ (name : String) (dflt : Nat), scanNameToKey name dflt = specLastMatchKey name dflt) ∧
    (∀ (d : Document) (a : CreateArgs) (sv : Bool) (ni : String) (name : String),
      a.category = some name → name ≠ "" →
      (∀ kv ∈ TAB_NAMES, nameMatches name kv = false) →
      createMessage d a sv ni = createMessage d { a with category := none } sv ni) ∧
    (∀ (d : Document) (a : UpdateArgs) (sv : Bool) (nl ni : String) (name : String),
      a.category = some name → name ≠ "" →
      (∀ kv ∈ TAB_NAMES, nameMatches name kv = false) →
      updateMessage d a sv nl ni = updateMessage d { a with category := none } sv nl ni) := by
  refine ⟨?_, ?_, ?_⟩
  · intro name dflt
    unfold scanNameToKey specLastMatchKey
    exact foldl_last_match TAB_NAMES (nameMatches name) dflt
  · intro d a sv ni name ha hne hnm
    have hr : resolveCategory (some name) 1 = 1 := by
      simp [resolveCategory, hne, scanNameToKey_no_match 1 hnm]
    unfold createMessage
    rw [ha]
    simp only [hr]
    rfl
  · intro d a sv nl ni name ha hne hnm
    have hs : ∀ dflt, scanNameToKey name dflt = dflt :=
      fun dflt => scanNameToKey_no_match dflt hnm
    have htabs : ∀ (t i : Int) (l : List String),
        updateTabs d a t i l = updateTabs d { a with category := none } t i l := by
      intro t i l
      unfold updateTabs
      rw [ha]
      simp [optTruthy_some_of_ne hne, Option.getD_some, hs,
        show optTruthy none = false from rfl]
    unfold updateMessage
    simp only [htabs]

theorem C5_category_resolution_witness :
    scanNameToKey "Second Messages" 7 = specLastMatchKey "Second Messages" 7 ∧
    createMessage ⟨[(1, TabVal.arr ["x"])], none⟩ ⟨some "t", some "c", some "zzz"⟩ true "n" =
      createMessage ⟨[(1, TabVal.arr ["x"])], none⟩ ⟨some "t", some "c", none⟩ true "n" :=
  ⟨C5_category_resolution.1 "Second Messages" 7,
    C5_category_resolution.2.1 ⟨[(1, TabVal.arr ["x"])], none⟩
      ⟨some "t", some "c", some "zzz"⟩ true "n" "zzz" rfl (by decide) (by decide)⟩

/-! Lookup and write lemmas for the association-list document. -/

theorem getTab_setTab_self (tabs : List (Nat × TabVal)) (k : Nat) (v : TabVal) :
    getTab (setTab tabs k v) k = some v := by
  induction tabs with
  | nil => simp [setTab, getTab]
  | cons kv rest ih =>
    obtain ⟨k1, v1⟩ := kv
    unfold setTab
    by_cases h1 : k = k1
    · simp [h1, getTab]
    · by_cases h2 : k < k1
      · simp [h1, h2, getTab]
      · simp only [h1, h2, if_false]
        unfold getTab
        rw [if_neg (fun he => h1 he.symm)]
        exact ih

theorem getTab_setTab_ne (tabs : List (Nat × TabVal)) (k k2 : Nat) (v : TabVal)
    (h : k ≠ k2) : getTab (setTab tabs k v) k2 = getTab tabs k2 := by
  induction tabs with
  | nil => simp [setTab, getTab, h]
  | cons kv rest ih =>
    obtain ⟨k1, v1⟩ := kv
    unfold setTab
    by_cases h1 : k = k1
    · subst h1
      simp [getTab, h]
    · by_cases h2 : k < k1
      · simp [h1, h2, getTab, h]
      · simp only [h1, h2, if_false]
        unfold getTab
        by_cases h3 : k1 = k2
        · rw [if_pos h3, if_pos h3]
        · rw [if_neg h3, if_neg h3]
          exact ih

theorem C6_counterexample :
    (createMessage ⟨[(1, TabVal.str "")], none⟩ ⟨some "t", some "c", none⟩ true "now").saveAttempt =
      some ⟨[(1, TabVal.arr ["c"])], none⟩ ∧
    TabVal.arr ["c"] ≠ TabVal.arr ["", "c"] := by
  refine ⟨?_, ?_⟩ <;> decide

/-- C6 amended: create targets the tab resolved from the category (default
tab key 1); an absent or falsy tab value is initialized to an empty sequence
before the append, a truthy non-sequence value is wrapped into a
single-element sequence (stringifying a non-string value), and a sequence is
kept; the content is appended and the returned id carries index new length
minus 1.  (The original claim also wrapped falsy scalars; C6_counterexample
refutes that on the empty-string scalar.) -/
theorem C6_create_append (d : Document) (a : CreateArgs) (sv : Bool) (ni : String)
    (k : Nat) (newSeq : List String)
    (ht : optTruthy a.title = true) (hc : optTruthy a.content = true)
    (hk : k = resolveCategory a.category 1)
    (hseq : newSeq = coerceTab (getTab d.tabs k) ++ [a.content.getD ""]) :
    (createMessage d a sv ni).saveAttempt =
      some { d with tabs := setTab d.tabs k (TabVal.arr newSeq) } ∧
    getTab (setTab d.tabs k (TabVal.arr newSeq)) k = some (TabVal.arr newSeq) ∧
    (sv = true →
      (createMessage d a sv ni).result = Except.ok
        { id := encodeMessageId (natToString k) (newSeq.length - 1)
          title := a.title.getD "", content := a.content.getD ""
          tabId := natToString k, category := keyToName k, createdAt := ni }) ∧
    (getTab d.tabs k = none → newSeq = [a.content.getD ""]) ∧
    (∀ l, getTab d.tabs k = some (TabVal.arr l) → newSeq = l ++ [a.content.getD ""]) ∧
    (∀ s, getTab d.tabs k = some (TabVal.str s) → s ≠ "" → newSeq = [s, a.content.getD ""]) ∧
    (∀ j, getTab d.tabs k = some (TabVal.other true j) → newSeq = [j, a.content.getD ""]) ∧
    (∀ v, getTab d.tabs k = some v → tvTruthy v = false → newSeq = [a.content.getD ""]) := by
  subst hk
  subst hseq
  refine ⟨?_, getTab_setTab_self _ _ _, ?_, ?_, ?_, ?_, ?_, ?_⟩
  · unfold createMessage
    rw [ht, hc]
    cases sv <;> rfl
  · intro hsv
    subst hsv
    unfold createMessage
    rw [ht, hc]
    rfl
  · intro hnone
    rw [hnone]
    rfl
  · intro l hl
    rw [hl]
    rfl
  · intro s hs hns
    rw [hs]
    simp [coerceTab, tvTruthy, hns]
  · intro j hj
    rw [hj]
    rfl
  · intro v hv hfalsy
    rw [hv]
    simp [coerceTab, hfalsy]

theorem C6_create_append_witness :
    (createMessage ⟨[(1, TabVal.arr ["x"])], none⟩ ⟨some "t", some "c", none⟩ true "now").saveAttempt =
      some { tabs := setTab [(1, TabVal.arr ["x"])] 1 (TabVal.arr ["x", "c"]),
             lastSaved := (none : Option String) } ∧
    getTab (setTab [(1, TabVal.arr ["x"])] 1 (TabVal.arr ["x", "c"])) 1 =
      some (TabVal.arr ["x", "c"]) ∧
    (true = true →
      (createMessage ⟨[(1, TabVal.arr ["x"])], none⟩ ⟨some "t", some "c", none⟩ true "now").result =
        Except.ok
          { id := encodeMessageId (natToString 1) (["x", "c"].length - 1)
            title := (some "t" : Option String).getD ""
            content := (some "c" : Option String).getD ""
            tabId := natToString 1, category := keyToName 1, createdAt := "now" }) ∧
    (getTab [(1, TabVal.arr ["x"])] 1 = none → ["x", "c"] = [(some "c" : Option String).getD ""]) ∧
    (∀ l, getTab [(1, TabVal.arr ["x"])] 1 = some (TabVal.arr l) →
      ["x", "c"] = l ++ [(some "c" : Option String).getD ""]) ∧
    (∀ s, getTab [(1, TabVal.arr ["x"])] 1 = some (TabVal.str s) → s ≠ "" →
      ["x", "c"] = [s, (some "c" : Option String).getD ""]) ∧
    (∀ j, getTab [(1, TabVal.arr ["x"])] 1 = some (TabVal.other true j) →
      ["x", "c"] = [j, (some "c" : Option String).getD ""]) ∧
    (∀ v, getTab [(1, TabVal.arr ["x"])] 1 = some v → tvTruthy v = false →
      ["x", "c"] = [(some "c" : Option String).getD ""]) :=
  C6_create_append ⟨[(1, TabVal.arr ["x"])], none⟩ ⟨some "t", some "c", none⟩ true "now"
    1 ["x", "c"] (by decide) (by decide) (by decide) (by decide)

/-! Control-flow shape lemmas for the mutating handlers. -/

theorem optTruthy_true_cases {o : Option String} (h : optTruthy o = true) :
    ∃ s, o = some s ∧ s ≠ "" := by
  cases o with
  | none => simp [optTruthy] at h
  | some s => exact ⟨s, rfl, by simpa [optTruthy] using h⟩

theorem createMessage_saveAttempt (d : Document) (a : CreateArgs) (sv : Bool) (ni : String) :
    (createMessage d a sv ni).saveAttempt =
      if (optTruthy a.title && optTruthy a.content) = true then
        some (Document.mk
          (setTab d.tabs (resolveCategory a.category 1)
            (TabVal.arr (coerceTab (getTab d.tabs (resolveCategory a.category 1)) ++
              [a.content.getD ""])))
          d.lastSaved)
      else none := by
  unfold createMessage
  cases hg : optTruthy a.title && optTruthy a.content
  · rfl
  · cases sv <;> rfl

theorem createMessage_error_save (d : Document) (a : CreateArgs) (sv : Bool) (ni : String)
    (e : MBError) (he : (createMessage d a sv ni).result = .error e) :
    (createMessage d a sv ni).saveAttempt = none ∨ e = MBError.saveFailed := by
  by_cases hg : (optTruthy a.title && optTruthy a.content) = true
  · right
    unfold createMessage at he
    rw [hg] at he
    simp only [Bool.not_true, Bool.false_eq_true, if_false] at he
    cases sv
    · simp only [Bool.false_eq_true, if_false] at he
      exact (Except.error.inj he).symm
    · simp at he
  · left
    rw [createMessage_saveAttempt, if_neg hg]

theorem updateMessage_no_id (d : Document) (a : UpdateArgs) (sv : Bool) (nl ni : String)
    (h : optTruthy a.messageId = false) :
    updateMessage d a sv nl ni = ⟨.error .missingRequiredField, none⟩ := by
  unfold updateMessage
  rw [h]
  rfl

theorem updateMessage_bad_id (d : Document) (a : UpdateArgs) (sv : Bool) (nl ni : String)
    (mid : String) (hm : a.messageId = some mid) (hne : mid ≠ "")
    (hp : parseMessageId mid = none) :
    updateMessage d a sv nl ni = ⟨.error .invalidIdFormat, none⟩ := by
  unfold updateMessage
  rw [hm, optTruthy_some_of_ne hne]
  simp only [Bool.not_true, Bool.false_eq_true, if_false, Option.getD_some, hp]

theorem updateMessage_not_found (d : Document) (a : UpdateArgs) (sv : Bool) (nl ni : String)
    (mid : String) (t i : Int)
    (hm : a.messageId = some mid) (hne : mid ≠ "")
    (hp : parseMessageId mid = some (t, i))
    (hA : tabArrayWithMsg (lookupTabId d t) i = none) :
    updateMessage d a sv nl ni = ⟨.error .messageNotFound, none⟩ := by
  unfold updateMessage
  rw [hm, optTruthy_some_of_ne hne]
  simp only [Bool.not_true, Bool.false_eq_true, if_false, Option.getD_some, hp, hA]

theorem updateMessage_found_save (d : Document) (a : UpdateArgs) (sv : Bool) (nl ni : String)
    (mid : String) (t i : Int) (l : List String)
    (hm : a.messageId = some mid) (hne : mid ≠ "")
    (hp : parseMessageId mid = some (t, i))
    (hA : tabArrayWithMsg (lookupTabId d t) i = some l) :
    (updateMessage d a sv nl ni).saveAttempt = some ⟨updateTabs d a t i l, some nl⟩ := by
  unfold updateMessage
  rw [hm, optTruthy_some_of_ne hne]
  simp only [Bool.not_true, Bool.false_eq_true, if_false, Option.getD_some, hp, hA]
  cases sv <;> rfl

theorem updateMessage_found_error (d : Document) (a : UpdateArgs) (sv : Bool) (nl ni : String)
    (mid : String) (t i : Int) (l : List String) (e : MBError)
    (hm : a.messageId = some mid) (hne : mid ≠ "")
    (hp : parseMessageId mid = some (t, i))
    (hA : tabArrayWithMsg (lookupTabId d t) i = some l)
    (he : (updateMessage d a sv nl ni).result = .error e) : e = MBError.saveFailed := by
  unfold updateMessage at he
  rw [hm, optTruthy_some_of_ne hne] at he
  simp only [Bool.not_true, Bool.false_eq_true, if_false, Option.getD_some, hp, hA] at he
  cases sv
  · simp only [Bool.false_eq_true, if_false] at he
    exact (Except.error.inj he).symm
  · simp at he

theorem deleteMessage_no_id (d : Document) (mo : Option String) (sv : Bool) (nl ni : String)
    (h : optTruthy mo = false) :
    deleteMessage d mo sv nl ni = ⟨.error .missingRequiredField, none⟩ := by
  unfold deleteMessage
  rw [h]
  rfl

theorem deleteMessage_bad_id (d : Document) (sv : Bool) (nl ni : String)
    (mid : String) (hne : mid ≠ "") (hp : parseMessageId mid = none) :
    deleteMessage d (some mid) sv nl ni = ⟨.error .invalidIdFormat, none⟩ := by
  unfold deleteMessage
  rw [optTruthy_some_of_ne hne]
  simp only [Bool.not_true, Bool.false_eq_true, if_false, Option.getD_some, hp]

theorem deleteMessage_not_found (d : Document) (sv : Bool) (nl ni : String)
    (mid : String) (t i : Int)
    (hne : mid ≠ "") (hp : parseMessageId mid = some (t, i))
    (hA : tabArrayWithMsg (lookupTabId d t) i = none) :
    deleteMessage d (some mid) sv nl ni = ⟨.error .messageNotFound, none⟩ := by
  unfold deleteMessage
  rw [optTruthy_some_of_ne hne]
  simp only [Bool.not_true, Bool.false_eq_true, if_false, Option.getD_some, hp, hA]

theorem deleteMessage_found_save (d : Document) (sv : Bool) (nl ni : String)
    (mid : String) (t i : Int) (l : List String)
    (hne : mid ≠ "") (hp : parseMessageId mid = some (t, i))
    (hA : tabArrayWithMsg (lookupTabId d t) i = some l) :
    (deleteMessage d (some mid) sv nl ni).saveAttempt =
      some ⟨setTab d.tabs t.toNat (TabVal.arr (l.eraseIdx i.toNat)), some nl⟩ := by
  unfold deleteMessage
  rw [optTruthy_some_of_ne hne]
  simp only [Bool.not_true, Bool.false_eq_true, if_false, Option.getD_some, hp, hA]
  cases sv <;> rfl

theorem deleteMessage_found_error (d : Document) (sv : Bool) (nl ni : String)
    (mid : String) (t i : Int) (l : List String) (e : MBError)
    (hne : mid ≠ "") (hp : parseMessageId mid = some (t, i))
    (hA : tabArrayWithMsg (lookupTabId d t) i = some l)
    (he : (deleteMessage d (some mid) sv nl ni).result = .error e) :
    e = MBError.saveFailed := by
  unfold deleteMessage at he
  rw [optTruthy_some_of_ne hne] at he
  simp only [Bool.not_true, Bool.false_eq_true, if_false, Option.getD_some, hp, hA] at he
  cases sv
  · simp only [Bool.false_eq_true, if_false] at he
    exact (Except.error.inj he).symm
  · simp at he

theorem updateMessage_error_save (d : Document) (a : UpdateArgs) (sv : Bool) (nl ni : String)
    (e : MBError) (he : (updateMessage d a sv nl ni).result = .error e) :
    (updateMessage d a sv nl ni).saveAttempt = none ∨ e = MBError.saveFailed := by
  cases hmt : optTruthy a.messageId with
  | false => left; rw [updateMessage_no_id d a sv nl ni hmt]
  | true =>
    obtain ⟨mid, hmid, hne⟩ := optTruthy_true_cases hmt
    cases hp : parseMessageId mid with
    | none => left; rw [updateMessage_bad_id d a sv nl ni mid hmid hne hp]
    | some ti =>
      obtain ⟨t, i⟩ := ti
      cases hA : tabArrayWithMsg (lookupTabId d t) i with
      | none => left; rw [updateMessage_not_found d a sv nl ni mid t i hmid hne hp hA]
      | some l =>
        right
        exact updateMessage_found_error d a sv nl ni mid t i l e hmid hne hp hA he

theorem deleteMessage_error_save (d : Document) (mo : Option String) (sv : Bool) (nl ni : String)
    (e : MBError) (he : (deleteMessage d mo sv nl ni).result = .error e) :
    (deleteMessage d mo sv nl ni).saveAttempt = none ∨ e = MBError.saveFailed := by
  cases hmt : optTruthy mo with
  | false => left; rw [deleteMessage_no_id d mo sv nl ni hmt]
  | true =>
    obtain ⟨mid, hmid, hne⟩ := optTruthy_true_cases hmt
    subst hmid
    cases hp : parseMessageId mid with
    | none => left; rw [deleteMessage_bad_id d sv nl ni mid hne hp]
    | some ti =>
      obtain ⟨t, i⟩ := ti
      cases hA : tabArrayWithMsg (lookupTabId d t) i with
      | none => left; rw [deleteMessage_not_found d sv nl ni mid t i hne hp hA]
      | some l =>
        right
        exact deleteMessage_found_error d sv nl ni mid t i l e hne hp hA he

theorem storeAfter_of_none {V : Type} (orig : Document) (o : Outcome V) (sv : Bool)
    (h : o.saveAttempt = none) : storeAfter orig o sv = orig := by
  unfold storeAfter
  rw [h]

/-- C7: the lastSaved field is treated asymmetrically: whenever create
attempts a save, the saved document keeps the loaded lastSaved value
unchanged, while every save attempted by update or delete carries lastSaved
refreshed to the current time. -/
theorem C7_lastSaved_asymmetry :
    (∀ (d : Document) (a : CreateArgs) (sv : Bool) (ni : String) (d1 : Document),
      (createMessage d a sv ni).saveAttempt = some d1 → d1.lastSaved = d.lastSaved) ∧
    (∀ (d : Document) (a : UpdateArgs) (sv : Bool) (nl ni : String) (d1 : Document),
      (updateMessage d a sv nl ni).saveAttempt = some d1 → d1.lastSaved = some nl) ∧
    (∀ (d : Document) (mo : Option String) (sv : Bool) (nl ni : String) (d1 : Document),
      (deleteMessage d mo sv nl ni).saveAttempt = some d1 → d1.lastSaved = some nl) := by
  refine ⟨?_, ?_, ?_⟩
  · intro d a sv ni d1 h
    rw [createMessage_saveAttempt] at h
    by_cases hg : (optTruthy a.title && optTruthy a.content) = true
    · rw [if_pos hg] at h
      cases Option.some.inj h
      rfl
    · rw [if_neg hg] at h
      cases h
  · intro d a sv nl ni d1 h
    cases hmt : optTruthy a.messageId with
    | false =>
      rw [updateMessage_no_id d a sv nl ni hmt] at h
      cases h
    | true =>
      obtain ⟨mid, hmid, hne⟩ := optTruthy_true_cases hmt
      cases hp : parseMessageId mid with
      | none =>
        rw [updateMessage_bad_id d a sv nl ni mid hmid hne hp] at h
        cases h
      | some ti =>
        obtain ⟨t, i⟩ := ti
        cases hA : tabArrayWithMsg (lookupTabId d t) i with
        | none =>
          rw [updateMessage_not_found d a sv nl ni mid t i hmid hne hp hA] at h
          cases h
        | some l =>
          rw [updateMessage_found_save d a sv nl ni mid t i l hmid hne hp hA] at h
          cases Option.some.inj h
          rfl
  · intro d mo sv nl ni d1 h
    cases hmt : optTruthy mo with
    | false =>
      rw [deleteMessage_no_id d mo sv nl ni hmt] at h
      cases h
    | true =>
      obtain ⟨mid, hmid, hne⟩ := optTruthy_true_cases hmt
      subst hmid
      cases hp : parseMessageId mid with
      | none =>
        rw [deleteMessage_bad_id d sv nl ni mid hne hp] at h
        cases h
      | some ti =>
        obtain ⟨t, i⟩ := ti
        cases hA : tabArrayWithMsg (lookupTabId d t) i with
        | none =>
          rw [deleteMessage_not_found d sv nl ni mid t i hne hp hA] at h
          cases h
        | some l =>
          rw [deleteMessage_found_save d sv nl ni mid t i l hne hp hA] at h
          cases Option.some.inj h
          rfl

theorem C7_lastSaved_asymmetry_witness :
    (⟨[(1, TabVal.arr ["a", "c"])], some "t0"⟩ : Document).lastSaved =
      (⟨[(1, TabVal.arr ["a"])], some "t0"⟩ : Document).lastSaved ∧
    (⟨[(1, TabVal.arr ["a", "b"])], some "nl"⟩ : Document).lastSaved = some "nl" ∧
    (⟨[(1, TabVal.arr ["b"])], some "nl"⟩ : Document).lastSaved = some "nl" :=
  ⟨C7_lastSaved_asymmetry.1 ⟨[(1, TabVal.arr ["a"])], some "t0"⟩ ⟨some "t", some "c", none⟩
      true "ni" ⟨[(1, TabVal.arr ["a", "c"])], some "t0"⟩ (by decide),
   C7_lastSaved_asymmetry.2.1 ⟨[(1, TabVal.arr ["a", "b"])], some "t0"⟩
      ⟨some "tab1-msg0", none, none, none⟩ true "nl" "ni"
      ⟨[(1, TabVal.arr ["a", "b"])], some "nl"⟩ (by decide),
   C7_lastSaved_asymmetry.2.2 ⟨[(1, TabVal.arr ["a", "b"])], some "t0"⟩
      (some "tab1-msg0") true "nl" "ni" ⟨[(1, TabVal.arr ["b"])], some "nl"⟩ (by decide)⟩

/-- C8: whenever create, update or delete fails with MissingRequiredField,
InvalidIdFormat or MessageNotFound, no save is attempted and the stored
document is unchanged; a save carries only the fully mutated in-memory
document, after all validation has succeeded. -/
theorem C8_no_partial_writes :
    (∀ (d : Document) (a : CreateArgs) (sv : Bool) (ni : String) (e : MBError),
      (createMessage d a sv ni).result = .error e →
      (e = .missingRequiredField ∨ e = .invalidIdFormat ∨ e = .messageNotFound) →
      (createMessage d a sv ni).saveAttempt = none ∧
        storeAfter d (createMessage d a sv ni) sv = d) ∧
    (∀ (d : Document) (a : UpdateArgs) (sv : Bool) (nl ni : String) (e : MBError),
      (updateMessage d a sv nl ni).result = .error e →
      (e = .missingRequiredField ∨ e = .invalidIdFormat ∨ e = .messageNotFound) →
      (updateMessage d a sv nl ni).saveAttempt = none ∧
        storeAfter d (updateMessage d a sv nl ni) sv = d) ∧
    (∀ (d : Document) (mo : Option String) (sv : Bool) (nl ni : String) (e : MBError),
      (deleteMessage d mo sv nl ni).result = .error e →
      (e = .missingRequiredField ∨ e = .invalidIdFormat ∨ e = .messageNotFound) →
      (deleteMessage d mo sv nl ni).saveAttempt = none ∧
        storeAfter d (deleteMessage d mo sv nl ni) sv = d) := by
  refine ⟨?_, ?_, ?_⟩
  · intro d a sv ni e he hmem
    have hn : (createMessage d a sv ni).saveAttempt = none := by
      rcases createMessage_error_save d a sv ni e he with hn | hsf
      · exact hn
      · subst hsf
        rcases hmem with h | h | h <;> cases h
    exact ⟨hn, storeAfter_of_none d _ sv hn⟩
  · intro d a sv nl ni e he hmem
    have hn : (updateMessage d a sv nl ni).saveAttempt = none := by
      rcases updateMessage_error_save d a sv nl ni e he with hn | hsf
      · exact hn
      · subst hsf
        rcases hmem with h | h | h <;> cases h
    exact ⟨hn, storeAfter_of_none d _ sv hn⟩
  · intro d mo sv nl ni e he hmem
    have hn : (deleteMessage d mo sv nl ni).saveAttempt = none := by
      rcases deleteMessage_error_save d mo sv nl ni e he with hn | hsf
      · exact hn
      · subst hsf
        rcases hmem with h | h | h <;> cases h
    exact ⟨hn, storeAfter_of_none d _ sv hn⟩

theorem C8_no_partial_writes_witness :
    ((updateMessage ⟨[(1, TabVal.arr ["a"])], none⟩ ⟨some "tab0-msg1", none, none, none⟩
        true "nl" "ni").saveAttempt = none ∧
      storeAfter ⟨[(1, TabVal.arr ["a"])], none⟩
        (updateMessage ⟨[(1, TabVal.arr ["a"])], none⟩ ⟨some "tab0-msg1", none, none, none⟩
          true "nl" "ni") true = ⟨[(1, TabVal.arr ["a"])], none⟩) ∧
    ((createMessage ⟨[(1, TabVal.arr ["a"])], none⟩ ⟨none, some "c", none⟩
        true "ni").saveAttempt = none ∧
      storeAfter ⟨[(1, TabVal.arr ["a"])], none⟩
        (createMessage ⟨[(1, TabVal.arr ["a"])], none⟩ ⟨none, some "c", none⟩
          true "ni") true = ⟨[(1, TabVal.arr ["a"])], none⟩) ∧
    ((deleteMessage ⟨[(1, TabVal.arr ["a"])], none⟩ (some "tab2-msg0")
        true "nl" "ni").saveAttempt = none ∧
      storeAfter ⟨[(1, TabVal.arr ["a"])], none⟩
        (deleteMessage ⟨[(1, TabVal.arr ["a"])], none⟩ (some "tab2-msg0")
          true "nl" "ni") true = ⟨[(1, TabVal.arr ["a"])], none⟩) :=
  ⟨C8_no_partial_writes.2.1 ⟨[(1, TabVal.arr ["a"])], none⟩
      ⟨some "tab0-msg1", none, none, none⟩ true "nl" "ni" MBError.invalidIdFormat
      (by decide) (by decide),
   C8_no_partial_writes.1 ⟨[(1, TabVal.arr ["a"])], none⟩ ⟨none, some "c", none⟩
      true "ni" MBError.missingRequiredField (by decide) (by decide),
   C8_no_partial_writes.2.2 ⟨[(1, TabVal.arr ["a"])], none⟩ (some "tab2-msg0")
      true "nl" "ni" MBError.messageNotFound (by decide) (by decide)⟩

/-! Counting lemmas over sorted tab lists, for the move claim. -/

def tabsTotal (tabs : List (Nat × TabVal)) : Nat :=
  (tabs.map (fun kv => specTabCount kv.2)).sum

theorem specTotal_eq (d : Document) : specTotalMessages d = tabsTotal d.tabs := rfl

theorem getTab_none_of_forall {tabs : List (Nat × TabVal)} {k : Nat}
    (h : ∀ kv ∈ tabs, kv.1 ≠ k) : getTab tabs k = none := by
  induction tabs with
  | nil => rfl
  | cons kv rest ih =>
    obtain ⟨k1, v1⟩ := kv
    unfold getTab
    rw [if_neg (h (k1, v1) (by simp))]
    exact ih (fun kv2 hm => h kv2 (by simp [hm]))

theorem tabsTotal_setTab_absent :
    ∀ (tabs : List (Nat × TabVal)) (k : Nat) (w : TabVal),
      getTab tabs k = none →
      tabsTotal (setTab tabs k w) = tabsTotal tabs + specTabCount w := by
  intro tabs
  induction tabs with
  | nil =>
    intro k w _
    simp [setTab, tabsTotal]
  | cons kv rest ih =>
    intro k w hg
    obtain ⟨k1, v1⟩ := kv
    unfold getTab at hg
    by_cases h1 : k1 = k
    · rw [if_pos h1] at hg
      cases hg
    · rw [if_neg h1] at hg
      unfold setTab
      rw [if_neg (fun he => h1 he.symm)]
      by_cases h3 : k < k1
      · rw [if_pos h3]
        simp only [tabsTotal, List.map_cons, List.sum_cons]
        omega
      · rw [if_neg h3]
        simp only [tabsTotal, List.map_cons, List.sum_cons]
        have := ih k w hg
        simp only [tabsTotal] at this
        omega

theorem tabsTotal_setTab_present :
    ∀ (tabs : List (Nat × TabVal)) (k : Nat) (v w : TabVal),
      SortedTabs tabs → getTab tabs k = some v →
      tabsTotal (setTab tabs k w) + specTabCount v = tabsTotal tabs + specTabCount w := by
  intro tabs
  induction tabs with
  | nil =>
    intro k v w _ hg
    cases hg
  | cons kv rest ih =>
    intro k v w hs hg
    obtain ⟨k1, v1⟩ := kv
    unfold SortedTabs at hs
    rw [List.pairwise_cons] at hs
    unfold getTab at hg
    by_cases h1 : k1 = k
    · rw [if_pos h1] at hg
      injection hg with hv
      unfold setTab
      rw [if_pos h1.symm]
      subst hv
      simp only [tabsTotal, List.map_cons, List.sum_cons]
      omega
    · rw [if_neg h1] at hg
      unfold setTab
      rw [if_neg (fun he => h1 he.symm)]
      by_cases h3 : k < k1
      · exfalso
        have hnone : getTab rest k = none := getTab_none_of_forall (fun kv2 hm => by
          have hlt : k1 < kv2.1 := hs.1 kv2 hm
          omega)
        rw [hnone] at hg
        cases hg
      · rw [if_neg h3]
        simp only [tabsTotal, List.map_cons, List.sum_cons]
        have := ih k v w hs.2 hg
        simp only [tabsTotal] at this
        omega

theorem mem_setTab :
    ∀ (tabs : List (Nat × TabVal)) (k : Nat) (v : TabVal) (kv2 : Nat × TabVal),
      kv2 ∈ setTab tabs k v → kv2.1 = k ∨ kv2 ∈ tabs := by
  intro tabs
  induction tabs with
  | nil =>
    intro k v kv2 hm
    simp only [setTab, List.mem_singleton] at hm
    left
    rw [hm]
  | cons kv rest ih =>
    intro k v kv2 hm
    obtain ⟨k1, v1⟩ := kv
    unfold setTab at hm
    by_cases h2 : k = k1
    · rw [if_pos h2] at hm
      rcases List.mem_cons.mp hm with rfl | hm2
      · left; rfl
      · right; exact List.mem_cons_of_mem _ hm2
    · rw [if_neg h2] at hm
      by_cases h3 : k < k1
      · rw [if_pos h3] at hm
        rcases List.mem_cons.mp hm with rfl | hm2
        · left; rfl
        · right; exact hm2
      · rw [if_neg h3] at hm
        rcases List.mem_cons.mp hm with rfl | hm2
        · right; exact List.mem_cons_self _ _
        · rcases ih k v kv2 hm2 with hk | hmem
          · left; exact hk
          · right; exact List.mem_cons_of_mem _ hmem

theorem setTab_sorted :
    ∀ (tabs : List (Nat × TabVal)) (k : Nat) (v : TabVal),
      SortedTabs tabs → SortedTabs (setTab tabs k v) := by
  intro tabs
  induction tabs with
  | nil =>
    intro k v _
    simp [setTab, SortedTabs]
  | cons kv rest ih =>
    intro k v hs
    obtain ⟨k1, v1⟩ := kv
    unfold SortedTabs at hs ⊢
    rw [List.pairwise_cons] at hs
    unfold setTab
    by_cases h2 : k = k1
    · rw [if_pos h2]
      rw [List.pairwise_cons]
      refine ⟨fun b hb => ?_, hs.2⟩
      have := hs.1 b hb
      simp only at this ⊢
      omega
    · rw [if_neg h2]
      by_cases h3 : k < k1
      · rw [if_pos h3]
        rw [List.pairwise_cons, List.pairwise_cons]
        refine ⟨fun b hb => ?_, fun b hb => hs.1 b hb, hs.2⟩
        rcases List.mem_cons.mp hb with rfl | hb2
        · simpa using h3
        · have := hs.1 b hb2
          simp only at this ⊢
          omega
      · rw [if_neg h3]
        rw [List.pairwise_cons]
        refine ⟨fun b hb => ?_, ih k v hs.2⟩
        rcases mem_setTab rest k v b hb with hbk | hbm
        · simp only
          omega
        · exact hs.1 b hbm

theorem tabArrayWithMsg_inv {v : Option TabVal} {i : Int} {l : List String}
    (h : tabArrayWithMsg v i = some l) :
    v = some (TabVal.arr l) ∧ ∃ m, jsIndex l i = some m ∧ m ≠ "" := by
  cases v with
  | none => cases h
  | some tv =>
    cases tv with
    | str s => cases h
    | other b j => cases h
    | arr l2 =>
      have h2 : (match jsIndex l2 i with
          | some m => if m = "" then none else some l2
          | none => none) = some l := h
      cases hj : jsIndex l2 i with
      | none =>
        rw [hj] at h2
        cases h2
      | some m =>
        rw [hj] at h2
        have h3 : (if m = "" then none else some l2) = some l := h2
        by_cases hm : m = ""
        · rw [if_pos hm] at h3
          cases h3
        · rw [if_neg hm] at h3
          injection h3 with hl
          subst hl
          exact ⟨rfl, m, hj, hm⟩

theorem jsIndex_some {l : List String} {i : Int} {m : String} (h : jsIndex l i = some m) :
    0 ≤ i ∧ i.toNat < l.length ∧ l.get? i.toNat = some m := by
  unfold jsIndex at h
  by_cases hi : i < 0
  · rw [if_pos hi] at h
    cases h
  · rw [if_neg hi] at h
    refine ⟨by omega, ?_, h⟩
    by_contra hb
    rw [List.get?_eq_none.mpr (by omega)] at h
    cases h

theorem updateTabs_move (d : Document) (a : UpdateArgs) (t i : Int) (l : List String)
    (name : String) (hc : optTruthy a.content = false)
    (hcat : a.category = some name) (hname : name ≠ "")
    (hk : scanNameToKey name t.toNat ≠ t.toNat) :
    updateTabs d a t i l =
      setTab (setTab d.tabs t.toNat (TabVal.arr (l.eraseIdx i.toNat)))
        (scanNameToKey name t.toNat)
        (TabVal.arr
          (coerceTab (getTab (setTab d.tabs t.toNat (TabVal.arr (l.eraseIdx i.toNat)))
            (scanNameToKey name t.toNat)) ++ [(l.get? i.toNat).getD ""])) := by
  unfold updateTabs
  rw [hc, hcat]
  simp only [optTruthy_some_of_ne hname, Option.getD_some, Bool.false_eq_true, if_false,
    if_true, if_neg hk]

/-- C2 counterexample: moving the only message of tab 1 into tab 2 that
holds the falsy empty-string scalar: the code reinitializes the destination
instead of coercing the scalar, so the destination ends with one element and
the spec-side total message count drops from 2 to 1 instead of staying
unchanged. -/
theorem C2_counterexample :
    (updateMessage ⟨[(1, TabVal.arr ["hello"]), (2, TabVal.str "")], none⟩
        ⟨some "tab1-msg0", none, none, some "Second Messages"⟩ true "nl" "ni").saveAttempt =
      some ⟨[(1, TabVal.arr []), (2, TabVal.arr ["hello"])], some "nl"⟩ ∧
    specTotalMessages ⟨[(1, TabVal.arr ["hello"]), (2, TabVal.str "")], none⟩ = 2 ∧
    specTotalMessages ⟨[(1, TabVal.arr []), (2, TabVal.arr ["hello"])], some "nl"⟩ = 1 := by
  refine ⟨?_, ?_, ?_⟩ <;> decide

/-- C2 amended: for a valid message id and a category resolving to a
different tab, update removes the message from its index in the source tab
(length down by one) and appends its content to the destination tab, the
destination first coerced to a sequence (length up by one over the coerced
value), and the spec-side total message count is unchanged, provided the
destination tab is absent or holds a truthy value; a falsy scalar
destination is reinitialized instead, dropping its coerced element
(C2_counterexample). -/
theorem C2_update_move (d : Document) (a : UpdateArgs) (sv : Bool) (nl ni : String)
    (mid name : String) (t i : Int) (l : List String) (newKey : Nat)
    (hs : SortedTabs d.tabs)
    (hmid : a.messageId = some mid) (hne : mid ≠ "")
    (hp : parseMessageId mid = some (t, i))
    (hA : tabArrayWithMsg (lookupTabId d t) i = some l)
    (hc : optTruthy a.content = false)
    (hcat : a.category = some name) (hname : name ≠ "")
    (hnk : newKey = scanNameToKey name t.toNat)
    (hk : newKey ≠ t.toNat)
    (hdest : ∀ v, getTab d.tabs newKey = some v → tvTruthy v = true) :
    ∃ d2 : Document,
      (updateMessage d a sv nl ni).saveAttempt = some d2 ∧
      getTab d2.tabs t.toNat = some (TabVal.arr (l.eraseIdx i.toNat)) ∧
      (l.eraseIdx i.toNat).length + 1 = l.length ∧
      getTab d2.tabs newKey = some (TabVal.arr
        (coerceTab (getTab d.tabs newKey) ++ [(l.get? i.toNat).getD ""])) ∧
      (coerceTab (getTab d.tabs newKey) ++ [(l.get? i.toNat).getD ""]).length =
        (coerceTab (getTab d.tabs newKey)).length + 1 ∧
      specTotalMessages d2 = specTotalMessages d := by
  obtain ⟨hv, m, hj, _⟩ := tabArrayWithMsg_inv hA
  have ht0 : ¬ t < 0 := by
    intro hneg
    unfold lookupTabId at hv
    rw [if_pos hneg] at hv
    cases hv
  have hglook : getTab d.tabs t.toNat = some (TabVal.arr l) := by
    unfold lookupTabId at hv
    rwa [if_neg ht0] at hv
  obtain ⟨_, hbound, hget⟩ := jsIndex_some hj
  have hlen : (l.eraseIdx i.toNat).length + 1 = l.length := by
    rw [List.length_eraseIdx]
    simp only [hbound, if_true]
    omega
  have hT1 : getTab (setTab d.tabs t.toNat (TabVal.arr (l.eraseIdx i.toNat))) newKey =
      getTab d.tabs newKey :=
    getTab_setTab_ne d.tabs t.toNat newKey _ (fun he => hk he.symm)
  have htabs2 : updateTabs d a t i l =
      setTab (setTab d.tabs t.toNat (TabVal.arr (l.eraseIdx i.toNat))) newKey
        (TabVal.arr (coerceTab (getTab d.tabs newKey) ++ [(l.get? i.toNat).getD ""])) := by
    rw [updateTabs_move d a t i l name hc hcat hname (hnk ▸ hk), ← hnk, hT1]
  refine ⟨⟨updateTabs d a t i l, some nl⟩,
    updateMessage_found_save d a sv nl ni mid t i l hmid hne hp hA, ?_, hlen, ?_, ?_, ?_⟩
  · show getTab (updateTabs d a t i l) t.toNat = _
    rw [htabs2, getTab_setTab_ne _ newKey t.toNat _ hk, getTab_setTab_self]
  · show getTab (updateTabs d a t i l) newKey = _
    rw [htabs2, getTab_setTab_self]
  · simp
  · show specTotalMessages ⟨updateTabs d a t i l, some nl⟩ = specTotalMessages d
    rw [specTotal_eq, specTotal_eq]
    show tabsTotal (updateTabs d a t i l) = tabsTotal d.tabs
    rw [htabs2]
    have hsrc := tabsTotal_setTab_present d.tabs t.toNat (TabVal.arr l)
      (TabVal.arr (l.eraseIdx i.toNat)) hs hglook
    have hsort1 : SortedTabs (setTab d.tabs t.toNat (TabVal.arr (l.eraseIdx i.toNat))) :=
      setTab_sorted d.tabs t.toNat _ hs
    cases hdv : getTab d.tabs newKey with
    | none =>
      have habs := tabsTotal_setTab_absent
        (setTab d.tabs t.toNat (TabVal.arr (l.eraseIdx i.toNat))) newKey
        (TabVal.arr (coerceTab none ++ [(l.get? i.toNat).getD ""]))
        (by rw [hT1, hdv])
      rw [habs]
      simp only [specTabCount, coerceTab, List.nil_append, List.length_cons, List.length_nil]
      simp only [specTabCount] at hsrc
      omega
    | some v =>
      have htv := hdest v hdv
      have hpres := tabsTotal_setTab_present
        (setTab d.tabs t.toNat (TabVal.arr (l.eraseIdx i.toNat))) newKey v
        (TabVal.arr (coerceTab (some v) ++ [(l.get? i.toNat).getD ""]))
        hsort1 (by rw [hT1, hdv])
      have hcount : specTabCount (TabVal.arr
          (coerceTab (some v) ++ [(l.get? i.toNat).getD ""])) =
          specTabCount v + 1 := by
        cases v with
        | arr lv => simp [specTabCount, coerceTab, tvTruthy]
        | str s =>
          simp only [tvTruthy] at htv
          simp [specTabCount, coerceTab, tvTruthy, htv]
        | other b j =>
          simp only [tvTruthy] at htv
          subst htv
          simp [specTabCount, coerceTab, tvTruthy]
      rw [hcount] at hpres
      simp only [specTabCount] at hsrc
      omega

theorem C2_update_move_witness :
    ∃ d2 : Document,
      (updateMessage ⟨[(1, TabVal.arr ["hello", "x"])], none⟩
        ⟨some "tab1-msg0", none, none, some "Second Messages"⟩ true "nl" "ni").saveAttempt =
        some d2 ∧
      getTab d2.tabs (Int.toNat 1) = some (TabVal.arr (["hello", "x"].eraseIdx (Int.toNat 0))) ∧
      (["hello", "x"].eraseIdx (Int.toNat 0)).length + 1 = ["hello", "x"].length ∧
      getTab d2.tabs 2 = some (TabVal.arr
        (coerceTab (getTab [(1, TabVal.arr ["hello", "x"])] 2) ++
          [(["hello", "x"].get? (Int.toNat 0)).getD ""])) ∧
      (coerceTab (getTab [(1, TabVal.arr ["hello", "x"])] 2) ++
          [(["hello", "x"].get? (Int.toNat 0)).getD ""]).length =
        (coerceTab (getTab [(1, TabVal.arr ["hello", "x"])] 2)).length + 1 ∧
      specTotalMessages d2 =
        specTotalMessages ⟨[(1, TabVal.arr ["hello", "x"])], none⟩ :=
  C2_update_move ⟨[(1, TabVal.arr ["hello", "x"])], none⟩
    ⟨some "tab1-msg0", none, none, some "Second Messages"⟩ true "nl" "ni"
    "tab1-msg0" "Second Messages" 1 0 ["hello", "x"] 2
    (by unfold SortedTabs; decide) rfl (by decide) (by decide) (by decide) rfl rfl
    (by decide) (by decide) (by decide) (fun v hv => Option.noConfusion hv)

/-! Pagination lemmas. -/

theorem jsSlice_nonneg {α : Type} (l : List α) (s e : Int) (h0 : 0 ≤ s) (hse : s ≤ e) :
    jsSlice l s e = (l.drop s.toNat).take (e - s).toNat := by
  simp only [jsSlice]
  rw [if_neg (by omega), if_neg (by omega)]
  by_cases h1 : s ≤ (l.length : Int)
  · rw [min_eq_left h1]
    by_cases h2 : e ≤ (l.length : Int)
    · rw [min_eq_left h2]
    · rw [min_eq_right (by omega)]
      rw [List.take_of_length_le (by simp only [List.length_drop]; omega),
        List.take_of_length_le (by simp only [List.length_drop]; omega)]
  · rw [min_eq_right (by omega), min_eq_right (by omega)]
    rw [show ((l.length : Int)).toNat = l.length by omega]
    rw [List.drop_length, List.drop_eq_nil_of_le (by omega)]
    simp

theorem getTab_mem_sorted :
    ∀ (tabs : List (Nat × TabVal)), SortedTabs tabs →
      ∀ kv ∈ tabs, getTab tabs kv.1 = some kv.2 := by
  intro tabs
  induction tabs with
  | nil =>
    intro _ kv hm
    cases hm
  | cons kv0 rest ih =>
    intro hs kv hm
    obtain ⟨k0, v0⟩ := kv0
    unfold SortedTabs at hs
    rw [List.pairwise_cons] at hs
    rcases List.mem_cons.mp hm with rfl | hm2
    · unfold getTab
      rw [if_pos rfl]
    · unfold getTab
      have hne : k0 ≠ kv.1 := by
        have := hs.1 kv hm2
        simp only at this
        omega
      rw [if_neg hne]
      exact ih hs.2 kv hm2

theorem flatten_lookup_eq (tabs : List (Nat × TabVal)) (hs : SortedTabs tabs) :
    ((tabs.map (fun kv => kv.1)).map (fun k =>
      match getTab tabs k with
      | some v => tabViews k v
      | none => [])).flatten =
    (tabs.map (fun kv => tabViews kv.1 kv.2)).flatten := by
  rw [List.map_map]
  congr 1
  apply List.map_congr_left
  intro kv hm
  show (match getTab tabs kv.1 with
    | some v => tabViews kv.1 v
    | none => []) = tabViews kv.1 kv.2
  rw [getTab_mem_sorted tabs hs kv hm]

/-- C9 counterexample: limit 0 is provided but falsy, so the code skips
pagination entirely and returns the full flattened list of one message,
while the claim's slice formula for a provided limit predicts the empty
slice from 0 to 0. -/
theorem C9_counterexample :
    getMessages ⟨[(1, TabVal.arr ["a"])], none⟩ ⟨none, some 0, none⟩ =
      specConcat ⟨[(1, TabVal.arr ["a"])], none⟩ ∧
    (specConcat ⟨[(1, TabVal.arr ["a"])], none⟩).length = 1 := by
  refine ⟨?_, ?_⟩ <;> decide

/-- C9 amended: without a category filter, get_messages never mutates the
document and flattens all tabs in ascending tab-key order, ascending index
within each tab; when no limit is given the full concatenation is returned;
for a provided positive limit and positive page (page defaulting to 1 when
absent) the result is the slice from (page-1)*limit of length limit; a
provided limit of 0 is falsy and skips pagination (C9_counterexample), and
negative limits or pages fall into the from-the-end indexing of the slice
primitive, not the claimed formula. -/
theorem C9_pagination (d : Document) (hs : SortedTabs d.tabs) :
    getMessages d ⟨none, none, none⟩ = specConcat d ∧
    (∀ lim : Int, 0 < lim →
      getMessages d ⟨none, some lim, none⟩ = (specConcat d).take lim.toNat) ∧
    (∀ lim page : Int, 0 < lim → 1 ≤ page →
      getMessages d ⟨none, some lim, some page⟩ =
        ((specConcat d).drop ((page - 1) * lim).toNat).take lim.toNat) := by
  have hmsg : ((d.tabs.map (fun kv => kv.1)).map (fun k =>
      match getTab d.tabs k with
      | some v => tabViews k v
      | none => [])).flatten = specConcat d :=
    flatten_lookup_eq d.tabs hs
  refine ⟨?_, ?_, ?_⟩
  · show ((d.tabs.map (fun kv => kv.1)).map (fun k =>
        match getTab d.tabs k with
        | some v => tabViews k v
        | none => [])).flatten = specConcat d
    exact hmsg
  · intro lim hlim
    show (if lim = 0 then
        ((d.tabs.map (fun kv => kv.1)).map (fun k =>
          match getTab d.tabs k with
          | some v => tabViews k v
          | none => [])).flatten
      else
        jsSlice (((d.tabs.map (fun kv => kv.1)).map (fun k =>
            match getTab d.tabs k with
            | some v => tabViews k v
            | none => [])).flatten)
          (((1 : Int) - 1) * lim) (((1 : Int) - 1) * lim + lim)) =
      (specConcat d).take lim.toNat
    rw [if_neg (by omega)]
    rw [show ((1 : Int) - 1) * lim = 0 from by ring]
    rw [show (0 : Int) + lim = lim from by ring]
    rw [jsSlice_nonneg _ 0 lim (by omega) (by omega)]
    rw [hmsg]
    simp
  · intro lim page hlim hpage
    show (if lim = 0 then
        ((d.tabs.map (fun kv => kv.1)).map (fun k =>
          match getTab d.tabs k with
          | some v => tabViews k v
          | none => [])).flatten
      else
        jsSlice (((d.tabs.map (fun kv => kv.1)).map (fun k =>
            match getTab d.tabs k with
            | some v => tabViews k v
            | none => [])).flatten)
          (((if page = 0 then 1 else page) - 1) * lim)
          (((if page = 0 then 1 else page) - 1) * lim + lim)) =
      ((specConcat d).drop ((page - 1) * lim).toNat).take lim.toNat
    rw [if_neg (by omega)]
    rw [show (if page = 0 then 1 else page) = page from if_neg (by omega)]
    rw [jsSlice_nonneg _ ((page - 1) * lim) ((page - 1) * lim + lim)
      (mul_nonneg (by omega) (by omega))
      (le_add_of_nonneg_right (by omega))]
    rw [hmsg]
    rw [show (page - 1) * lim + lim - (page - 1) * lim = lim from by ring]

theorem C9_pagination_witness :
    getMessages ⟨[(1, TabVal.arr ["a", "b"]), (2, TabVal.arr ["c"])], none⟩ ⟨none, none, none⟩ =
      specConcat ⟨[(1, TabVal.arr ["a", "b"]), (2, TabVal.arr ["c"])], none⟩ ∧
    getMessages ⟨[(1, TabVal.arr ["a", "b"]), (2, TabVal.arr ["c"])], none⟩
        ⟨none, some 2, some 2⟩ =
      ((specConcat ⟨[(1, TabVal.arr ["a", "b"]), (2, TabVal.arr ["c"])], none⟩).drop
        (((2 : Int) - 1) * 2).toNat).take (2 : Int).toNat :=
  ⟨(C9_pagination ⟨[(1, TabVal.arr ["a", "b"]), (2, TabVal.arr ["c"])], none⟩
      (by unfold SortedTabs; decide)).1,
   (C9_pagination ⟨[(1, TabVal.arr ["a", "b"]), (2, TabVal.arr ["c"])], none⟩
      (by unfold SortedTabs; decide)).2.2 2 2 (by decide) (by decide)⟩

end MessageBoard
